import Mathlib

set_option linter.unusedVariables false
set_option maxRecDepth 20000

/-!
Verification of the translation-file checking pipeline (`src/main.py`).

Python dicts are modelled as association lists preserving insertion order
(`LangTable`, `Translations`, `Exemptions`).  The report produced through
`gh_summary` is modelled as a `List String`; a check returns the lines it
emitted together with `Option PyError`, `none` meaning the Python function
returned normally and `some e` that it raised `e`.

Python `set` iteration order is unspecified (string hashing is randomized
per process), so every place where the source iterates over a set is
parameterized by an enumeration function `ord`; `ValidOrder ord` says `ord`
only permutes the set's element list.
-/

/-- An ordered string-to-string mapping: one language file after JSON parsing. -/
abbrev LangTable := List (String × String)

/-- The ordered mapping from language code to its table (`translations` in `main`). -/
abbrev Translations := List (String × LangTable)

/-- The table of `intentionally_untranslated.json`: language code to list of exempted keys. -/
abbrev Exemptions := List (String × List String)

/-- The keys of a table, in insertion order (`data.keys()`). -/
def keys (t : LangTable) : List String :=
  t.map Prod.fst

/-- Python exceptions that the checks can raise. -/
inductive PyError where
  | validation : String → PyError
  | keyError : String → PyError
  | zeroDivision : PyError
deriving DecidableEq, Repr

/-- An enumeration function for Python sets is valid when it merely permutes
the list of elements of the set. -/
def ValidOrder (ord : List String → List String) : Prop :=
  ∀ l : List String, (ord l).Perm l

/-- The floor of the base-2 logarithm of a natural number (0 for 0 and 1),
written with a fuel recursion over `Nat.rec` so that it evaluates by kernel
reduction in one step per halving. -/
def nlog2 (n : ℕ) : ℕ :=
  Nat.rec (motive := fun _ => ℕ → ℕ) (fun _ => 0)
    (fun _ ih m => if 2 ≤ m then ih (m / 2) + 1 else 0) n n

/-- Round the ratio `n / d` of naturals to the nearest integer, ties to
even. -/
def rhe (n d : ℕ) : ℕ :=
  let q := n / d
  let r := n % d
  if d < 2 * r then q + 1
  else if 2 * r < d then q
  else if q % 2 = 0 then q else q + 1

/-- Whether `2 ^ c ≤ num / den`, for naturals and an integer exponent. -/
def pow2_le (num den : ℕ) (c : ℤ) : Bool :=
  if 0 ≤ c then decide (den * 2 ^ c.toNat ≤ num) else decide (den ≤ num * 2 ^ (-c).toNat)

/-- The floor of the base-2 logarithm of the positive ratio `num / den`. -/
def ilog2 (num den : ℕ) : ℤ :=
  let c : ℤ := (nlog2 num : ℤ) - (nlog2 den : ℤ)
  if pow2_le num den c then c else c - 1

/-- Round the ratio `num / den` of naturals to the IEEE-754 binary64 grid:
to the nearest representable value, ties to even, with the subnormal grid
`2 ^ (-1074)` below `2 ^ (-1022)` and overflow to infinity (`none`) at
`2 ^ 1024`.  The result `(m, g)` has exact value `m * 2 ^ g`.  This is
exactly how CPython evaluates `int / int` (a correctly rounded conversion)
and how its float multiplication rounds, except that an `int / int`
quotient at or beyond `2 ^ 1024` raises `OverflowError` where float
arithmetic (and this model) gives infinity — distinguishable only with a
table of at least `2 ^ 1024` entries. -/
def b64_of_ratio (num den : ℕ) : Option (ℕ × ℤ) :=
  if num = 0 then some (0, 0)
  else
    let e := ilog2 num den
    let g : ℤ := if e - 52 ≤ -1074 then -1074 else e - 52
    let n := if 0 ≤ g then num else num * 2 ^ (-g).toNat
    let d := if 0 ≤ g then den * 2 ^ g.toNat else den
    let m := rhe n d
    if 0 ≤ g ∧ 2 ^ 1024 ≤ m * 2 ^ g.toNat then none else some (m, g)

/-- Numerator of the exact value `m * 2 ^ g` of a binary64. -/
def b64_num (m : ℕ) (g : ℤ) : ℕ :=
  if 0 ≤ g then m * 2 ^ g.toNat else m

/-- Denominator of the exact value `m * 2 ^ g` of a binary64. -/
def b64_den (g : ℤ) : ℕ :=
  if 0 ≤ g then 1 else 2 ^ (-g).toNat

/-- The float computation `len(data) / len(en_us) * 100` of src/main.py:26:
the correctly rounded binary64 quotient, then the correctly rounded
binary64 product with 100 (100 is exactly representable). -/
def pct_b64 (num den : ℕ) : Option (ℕ × ℤ) :=
  match b64_of_ratio num den with
  | none => none
  | some (m, g) => b64_of_ratio (b64_num m g * 100) (b64_den g)

/-- Rendering of `{x:.2f}` for a binary64 `x ≥ 0`: the double's exact value
rounded to hundredths and printed with two decimal places.  A decimal tie
is impossible, because a tie would make the exact value an odd multiple of
`1 / 200`, which is not a binary fraction; so the half-even tie rule of
`rhe` is immaterial and this matches CPython's correctly rounded
formatting.  Infinity prints "inf". -/
def fmt2 : Option (ℕ × ℤ) → String
  | none => "inf"
  | some (m, g) =>
    let c := rhe (b64_num m g * 100) (b64_den g)
    toString (c / 100) ++ "." ++ (if c % 100 < 10 then "0" else "") ++ toString (c % 100)

/-- Embedding of `show_translation_stats` (src/main.py:20-27).  Emits the table header, the
`en_us` row, then one row per language with `len(data) / len(en_us) * 100`.
When `en_us` is empty and a translation exists, the first row's division
raises `ZeroDivisionError` after the header lines were already emitted. -/
def show_translation_stats (en_us : LangTable) (translations : Translations) :
    List String × Option PyError :=
  let header := ["| Language | Translated | % |", "| --- | --- | --- |",
    "| en_us | " ++ toString en_us.length ++ " | 100.00% |"]
  if en_us.length = 0 ∧ translations ≠ [] then
    (header, some PyError.zeroDivision)
  else
    (header ++
      translations.map (fun p =>
        "| " ++ p.1 ++ " | " ++ toString p.2.length ++ " | " ++
          fmt2 (pct_b64 p.2.length en_us.length) ++ "% |") ++
      [""], none)

/-- The element list of the Python set `set(data.keys()) - set(en_us.keys())`:
the distinct keys of `data` that are absent from `en_us`. -/
def extra_keys_of (en_us data : LangTable) : List String :=
  ((keys data).filter (fun k => !((keys en_us).contains k))).dedup

/-- The report block one language contributes in `check_extra_keys`
(src/main.py:35-41); `ord` fixes the iteration order of the `extra_keys` set. -/
def extra_block (ord : List String → List String) (en_us : LangTable)
    (lang : String) (data : LangTable) : List String :=
  let extra := extra_keys_of en_us data
  if extra.isEmpty then []
  else
    ("⚠ " ++ lang ++ ".json contains translations that don't exist in en_us.json (" ++
      toString extra.length ++ " found):") :: (ord extra).map (fun k => "- " ++ k)

/-- Embedding of `check_extra_keys` (src/main.py:30-44).  Reports every language's extra
keys, then raises iff any language had extra keys; otherwise emits the
confirmation line. -/
def check_extra_keys (ord : List String → List String) (en_us : LangTable)
    (translations : Translations) : List String × Option PyError :=
  let report := (translations.map (fun p => extra_block ord en_us p.1 p.2)).flatten
  if translations.any (fun p => !(extra_keys_of en_us p.2).isEmpty) then
    (report, some (PyError.validation "Found extra keys in one or more translation files"))
  else
    (report ++ ["✅ No extra keys found"], none)

/-- The test `lang in intentionally_untranslated and key in intentionally_untranslated[lang]`
(src/main.py:58). -/
def exempt (ex : Exemptions) (lang key : String) : Bool :=
  match List.lookup lang ex with
  | some ks => ks.contains key
  | none => false

/-- The inner loop of `check_untranslated_strings` for one language
(src/main.py:55-60): walks `data.items()` in order, evaluates `en_us[key]`
for every key (raising `KeyError` on the first key absent from `en_us`), and
collects the keys whose value equals the reference value and are not
exempted, in insertion order. -/
def untranslated_keys_of (en_us : LangTable) (ex : Exemptions) (lang : String) :
    LangTable → Except String (List String)
  | [] => Except.ok []
  | (k, v) :: rest =>
    match List.lookup k en_us with
    | none => Except.error k
    | some ev =>
      match untranslated_keys_of en_us ex lang rest with
      | Except.error e => Except.error e
      | Except.ok us =>
        Except.ok (if v == ev && !(exempt ex lang k) then k :: us else us)

/-- The report block one language contributes in `check_untranslated_strings`
(src/main.py:61-76) when its `untranslated_strings` set `us` is non-empty.
The set is iterated twice with the same order `ord` (within one run an
unmodified set enumerates identically).  Line 67 prints `en_us[key]`; since
every collected key satisfied `value == en_us[key]`, the lookup succeeds and
`getD` never falls back to its default. -/
def untranslated_block (ord : List String → List String) (en_us : LangTable)
    (lang : String) (us : List String) : List String :=
  if us.isEmpty then []
  else
    ("⚠ " ++ lang ++ ".json contains strings that are identical to en_us.json (" ++
      toString us.length ++ " found):") ::
    (ord us).map (fun k => "- " ++ k ++ ": " ++ ((List.lookup k en_us).getD "")) ++
    ["\nIf this is intentional, add the affected key(s) to intentionally_untranslated.json:",
     "```json",
     "  \"" ++ lang ++ "\": ["] ++
    (ord us).map (fun k => "    \"" ++ k ++ "\"") ++
    ["  ]", "```"]

/-- The language loop of `check_untranslated_strings` (src/main.py:54-80),
threading the `untranslated_strings_found` flag.  A `KeyError` aborts the
loop at once, keeping the lines already emitted; after the loop the check
raises iff the flag was set, otherwise emits the confirmation line. -/
def cus_go (ord : List String → List String) (en_us : LangTable) (ex : Exemptions) :
    Translations → Bool → List String × Option PyError
  | [], found =>
    if found then
      ([], some (PyError.validation "Found untranslated strings in one or more translation files"))
    else
      (["✅ No accidentally untranslated strings found"], none)
  | (lang, data) :: rest, found =>
    match untranslated_keys_of en_us ex lang data with
    | Except.error k => ([], some (PyError.keyError k))
    | Except.ok us0 =>
      let us := us0.dedup
      let tail := cus_go ord en_us ex rest (found || !us.isEmpty)
      (untranslated_block ord en_us lang us ++ tail.1, tail.2)

/-- Embedding of `check_untranslated_strings` (src/main.py:47-80). -/
def check_untranslated_strings (ord : List String → List String) (en_us : LangTable)
    (translations : Translations) (ex : Exemptions) : List String × Option PyError :=
  cus_go ord en_us ex translations false

/-- The order comparison for one language (src/main.py:86-88): reference keys
filtered to those present in the translation versus translation keys filtered
to those present in the reference. -/
def order_mismatch (en_us data : LangTable) : Bool :=
  ((keys en_us).filter (fun k => (keys data).contains k)) !=
    ((keys data).filter (fun k => (keys en_us).contains k))

/-- Embedding of `check_order_of_strings` (src/main.py:83-90): raises for the first
language whose key order disagrees, emitting nothing; otherwise emits one
confirmation line. -/
def check_order_of_strings (en_us : LangTable) (translations : Translations) :
    List String × Option PyError :=
  match translations.find? (fun p => order_mismatch en_us p.2) with
  | some p =>
    ([], some (PyError.validation
      ("⚠ The order of strings in " ++ p.1 ++ ".json is different from en_us.json")))
  | none => (["✅ The order of strings in each translation file matches en_us.json"], none)

/-- Python's `pat in s` on strings: `pat` occurs as a contiguous substring. -/
def substr (pat s : String) : Bool :=
  s.data.tails.any (fun t => pat.data.isPrefixOf t)

/-- The fixed `known_typos` table (src/main.py:98-107), in insertion order. -/
def known_typos : List (String × String) :=
  [("Anchoraura", "AnchorAura"),
   ("Autobuild", "AutoBuild"),
   ("Clickaura", "ClickAura"),
   ("KillAura", "Killaura"),
   ("LegitNuker", "Nuker"),
   ("LegitKillaura", "KillauraLegit"),
   ("Nofall", "NoFall"),
   ("Triggerbot", "TriggerBot")]

/-- The warning block the typo loop emits for one `(typo, correct)` hit
(src/main.py:113-118). -/
def typo_warning (lang key value typo correct : String) : List String :=
  ["⚠ In " ++ lang ++ ".json string " ++ key ++ ", the word '" ++ correct ++
    "' is incorrectly translated as '" ++ typo ++ "':",
   "```json",
   "  \"" ++ key ++ "\": \"" ++ value ++ "\"",
   "```"]

/-- The typo loop of `check_known_issues` for one translated entry
(src/main.py:110-118): every typo pair whose typo substring occurs in the
value is flagged, in table order. -/
def typo_lines (lang key value : String) : List String :=
  (known_typos.map (fun tc =>
    if substr tc.1 value then typo_warning lang key value tc.1 tc.2 else [])).flatten

def boatfly_key : String := "description.wurst.hack.boatfly"

def radar_key : String := "description.wurst.hack.radar"

/-- The Boatfly content rule (src/main.py:123-128): flags when the key is
present and its lowercased value contains "shift". -/
def boatfly_lines (lang : String) (data : LangTable) : List String :=
  match List.lookup boatfly_key data with
  | some v =>
    if substr "shift" v.toLower then
      ["⚠ In " ++ lang ++ ".json, the translation for " ++ boatfly_key ++
        " incorrectly suggests using the shift (sneak) key instead of ctrl (sprint) to descend"]
    else []
  | none => []

/-- The Radar condition (src/main.py:131-136): any of the three color-code
substrings; orange is deliberately not checked because it appears in the
French translation. -/
def radar_flagged (v : String) : Bool :=
  substr "§cred§r" v || substr "§agreen§r" v || substr "§7gray§r" v

/-- The Radar content rule (src/main.py:130-143). -/
def radar_lines (lang : String) (data : LangTable) : List String :=
  match List.lookup radar_key data with
  | some v =>
    if radar_flagged v then
      ["⚠ In " ++ lang ++ ".json, the translation for " ++ radar_key ++
        " contains untranslated colors:",
       "```json",
       "  \"" ++ radar_key ++ "\": \"" ++ v ++ "\"",
       "```"]
    else []
  | none => []

/-- All warning lines `check_known_issues` emits: the typo loop over every
language's entries (src/main.py:108-118) followed by the difficult-strings
loop (src/main.py:121-143). -/
def known_issue_lines (translations : Translations) : List String :=
  (translations.map (fun p =>
    (p.2.map (fun kv => typo_lines p.1 kv.1 kv.2)).flatten)).flatten ++
  (translations.map (fun p =>
    boatfly_lines p.1 p.2 ++ radar_lines p.1 p.2)).flatten

/-- Embedding of `check_known_issues` (src/main.py:93-147): `issues_found` is
set exactly when some warning block was emitted, and the check raises iff it
is set.  The parameter `en_us` is accepted but unused, as in the source. -/
def check_known_issues (en_us : LangTable) (translations : Translations) :
    List String × Option PyError :=
  if (known_issue_lines translations).isEmpty then
    (["✅ No known issues found in any translation files"], none)
  else
    (known_issue_lines translations,
      some (PyError.validation "Found known issues in one or more translation files"))

/-- The three reserved metadata keys popped in `main` (src/main.py:157-159). -/
def reserved_keys : List String :=
  ["language.name", "language.region", "language.code"]

/-- Effect of `data.pop(k, None)` for the three reserved keys: removes them wherever
they occur, keeps the remaining entries in order; absence is not an error. -/
def strip_metadata (data : LangTable) : LangTable :=
  data.filter (fun kv => !(reserved_keys.contains kv.1))

/-- The loading phase of `main` (src/main.py:151-160), after file discovery
and JSON parsing: the reference table is used as read, while every
translation table has the reserved metadata keys stripped. -/
def load_tables (raw_en_us : LangTable) (raw_translations : Translations) :
    LangTable × Translations :=
  (raw_en_us, raw_translations.map (fun p => (p.1, strip_metadata p.2)))

/-- The check sequence of `main` (src/main.py:162-167) on loaded tables:
stats, extra keys, untranslated strings, order, and (with `--wurst-mode`)
known issues.  An exception raised by a check propagates at once, so later
checks do not run and contribute no report lines. -/
def main_checks (ord : List String → List String) (en_us : LangTable)
    (translations : Translations) (ex : Exemptions) (wurst_mode : Bool) :
    List String × Option PyError :=
  let s1 := show_translation_stats en_us translations
  match s1.2 with
  | some e => (s1.1, some e)
  | none =>
    let s2 := check_extra_keys ord en_us translations
    match s2.2 with
    | some e => (s1.1 ++ s2.1, some e)
    | none =>
      let s3 := check_untranslated_strings ord en_us translations ex
      match s3.2 with
      | some e => (s1.1 ++ s2.1 ++ s3.1, some e)
      | none =>
        let s4 := check_order_of_strings en_us translations
        match s4.2 with
        | some e => (s1.1 ++ s2.1 ++ s3.1 ++ s4.1, some e)
        | none =>
          if wurst_mode then
            let s5 := check_known_issues en_us translations
            (s1.1 ++ s2.1 ++ s3.1 ++ s4.1 ++ s5.1, s5.2)
          else
            (s1.1 ++ s2.1 ++ s3.1 ++ s4.1, none)

/-! ### Basic facts about the embedded operations -/

theorem contains_true_iff {l : List String} {a : String} :
    l.contains a = true ↔ a ∈ l := by
  simp [List.contains_iff_exists_mem_beq]

theorem extra_keys_of_eq_nil {en_us data : LangTable} :
    extra_keys_of en_us data = [] ↔ ∀ k ∈ keys data, k ∈ keys en_us := by
  unfold extra_keys_of
  rw [List.dedup_eq_nil, List.filter_eq_nil_iff]
  simp [contains_true_iff]

theorem mem_extra_keys_of {en_us data : LangTable} {k : String} :
    k ∈ extra_keys_of en_us data ↔ k ∈ keys data ∧ k ∉ keys en_us := by
  unfold extra_keys_of
  rw [List.mem_dedup, List.mem_filter]
  simp [contains_true_iff]

theorem order_mismatch_false_iff {en_us data : LangTable} :
    order_mismatch en_us data = false ↔
      (keys en_us).filter (fun k => (keys data).contains k) =
        (keys data).filter (fun k => (keys en_us).contains k) := by
  unfold order_mismatch
  rw [bne_eq_false_iff_eq]

/-- C3: the key-order check passes iff for every language the reference keys
restricted to that language equal, element-wise and in order, the language's
keys restricted to the reference; a mismatch raises immediately for the
first failing language with no aggregation, and on success exactly one
confirmation line is emitted. -/
theorem order_check_correct (en_us : LangTable) (translations : Translations) :
    ((check_order_of_strings en_us translations).2 = none ↔
      ∀ p ∈ translations,
        (keys en_us).filter (fun k => (keys p.2).contains k) =
          (keys p.2).filter (fun k => (keys en_us).contains k)) ∧
    ((check_order_of_strings en_us translations).2 = none →
      (check_order_of_strings en_us translations).1 =
        ["✅ The order of strings in each translation file matches en_us.json"]) ∧
    (∀ pre lang data post,
      translations = pre ++ (lang, data) :: post →
      (∀ q ∈ pre, order_mismatch en_us q.2 = false) →
      order_mismatch en_us data = true →
      check_order_of_strings en_us translations =
        ([], some (PyError.validation
          ("⚠ The order of strings in " ++ lang ++ ".json is different from en_us.json")))) := by
  refine ⟨?_, ?_, ?_⟩
  · unfold check_order_of_strings
    cases h : translations.find? (fun p => order_mismatch en_us p.2) with
    | none =>
      simp only [Option.some.injEq]
      rw [List.find?_eq_none] at h
      simp only [true_iff]
      intro p hp
      have := h p hp
      rw [Bool.not_eq_true] at this
      exact order_mismatch_false_iff.1 this
    | some q =>
      simp only []
      constructor
      · intro hc; cases hc
      · intro hall
        have hq := List.find?_some h
        have hqmem := List.mem_of_find?_eq_some h
        rw [order_mismatch_false_iff.2 (hall q hqmem)] at hq
        cases hq
  · unfold check_order_of_strings
    cases h : translations.find? (fun p => order_mismatch en_us p.2) with
    | none => intro; rfl
    | some q => intro hc; cases hc
  · intro pre lang data post hts hpre hmis
    have hfind : translations.find? (fun p => order_mismatch en_us p.2) = some (lang, data) := by
      subst hts
      rw [List.find?_append]
      have h1 : pre.find? (fun p => order_mismatch en_us p.2) = none := by
        rw [List.find?_eq_none]
        intro q hq
        rw [Bool.not_eq_true]
        exact hpre q hq
      rw [h1, Option.none_or]
      exact List.find?_cons_of_pos _ hmis
    unfold check_order_of_strings
    rw [hfind]

theorem order_check_correct_witness :
    check_order_of_strings [("a", "1"), ("b", "2"), ("c", "3")] [("it", [("b", "1"), ("a", "2")])] =
      ([], some (PyError.validation "⚠ The order of strings in it.json is different from en_us.json")) :=
  (order_check_correct [("a", "1"), ("b", "2"), ("c", "3")]
      [("it", [("b", "1"), ("a", "2")])]).2.2
    [] "it" [("b", "1"), ("a", "2")] [] rfl (by intro q hq; cases hq) (by decide)

/-- C4 counterexample: with an empty reference table and a non-empty
translations map, the stats pass raises `ZeroDivisionError` instead of
returning normally. -/
theorem stats_never_raises_counterexample :
    (show_translation_stats [] [("de", [("a", "x")])]).2 = some PyError.zeroDivision := by
  decide

/-- C4 amended: the stats pass returns normally iff the reference table is
non-empty or the translations map is empty; in that case it emits, for each
language, a line with the language code, its entry count, and the
two-decimal percentage of the reference entry count.  With an empty
reference and a non-empty translations map it raises `ZeroDivisionError`. -/
theorem stats_amended (en_us : LangTable) (translations : Translations) :
    ((show_translation_stats en_us translations).2 = none ↔
      (en_us.length ≠ 0 ∨ translations = [])) ∧
    ((show_translation_stats en_us translations).2 = none →
      ∀ p ∈ translations,
        ("| " ++ p.1 ++ " | " ++ toString p.2.length ++ " | " ++
            fmt2 (pct_b64 p.2.length en_us.length) ++ "% |") ∈
          (show_translation_stats en_us translations).1) := by
  unfold show_translation_stats
  by_cases h : en_us.length = 0 ∧ translations ≠ []
  · rw [if_pos h]
    constructor
    · simp only [Option.some_ne_none, false_iff]
      push_neg
      exact h
    · intro hc
      cases hc
  · rw [if_neg h]
    constructor
    · simp only [true_iff]
      by_cases hlen : en_us.length = 0
      · right
        by_contra hne
        exact h ⟨hlen, hne⟩
      · left; exact hlen
    · intro _ p hp
      simp only [List.mem_append, List.mem_map]
      left; right
      exact ⟨p, hp, rfl⟩

theorem stats_amended_witness :
    (show_translation_stats [("a", "x")] [("de", [("b", "y")])]).2 = none ∧
    ("| " ++ "de" ++ " | " ++ toString [("b", "y")].length ++ " | " ++
        fmt2 (pct_b64 [("b", "y")].length [("a", "x")].length) ++ "% |") ∈
      (show_translation_stats [("a", "x")] [("de", [("b", "y")])]).1 := by
  have h := stats_amended [("a", "x")] [("de", [("b", "y")])]
  have h1 : (show_translation_stats [("a", "x")] [("de", [("b", "y")])]).2 = none :=
    h.1.mpr (Or.inl (by decide))
  exact ⟨h1, h.2 h1 ("de", [("b", "y")]) (by decide)⟩

/-- C5 counterexample: the reserved metadata key `language.name` survives
loading in the reference table, because `main` only pops the reserved keys
from the translation tables. -/
theorem metadata_strip_counterexample :
    "language.name" ∈ reserved_keys ∧
    "language.name" ∈ keys (load_tables [("language.name", "English")] []).1 := by
  decide

/-- C5 amended: after loading, none of the three reserved metadata keys is
present in any loaded translation table, and their absence from an input is
not an error (loading is total); the reference table, however, is loaded
unchanged, so reserved keys present in it are kept. -/
theorem metadata_strip_amended (raw_en_us : LangTable) (raw_translations : Translations) :
    (∀ p ∈ (load_tables raw_en_us raw_translations).2, ∀ k ∈ reserved_keys, k ∉ keys p.2) ∧
    (load_tables raw_en_us raw_translations).1 = raw_en_us := by
  constructor
  · intro p hp k hk hkp
    unfold load_tables at hp
    simp only [List.mem_map] at hp
    obtain ⟨q, _, rfl⟩ := hp
    unfold keys strip_metadata at hkp
    simp only [List.mem_map, List.mem_filter] at hkp
    obtain ⟨kv, ⟨_, hc⟩, rfl⟩ := hkp
    rw [Bool.not_eq_true'] at hc
    rw [← contains_true_iff] at hk
    rw [hc] at hk
    cases hk
  · rfl

theorem metadata_strip_amended_witness :
    (∀ p ∈ (load_tables [("a", "x")] [("de", [("language.name", "German"), ("b", "y")])]).2,
      ∀ k ∈ reserved_keys, k ∉ keys p.2) ∧
    (load_tables [("a", "x")] [("de", [("language.name", "German"), ("b", "y")])]).1 =
      [("a", "x")] :=
  metadata_strip_amended [("a", "x")] [("de", [("language.name", "German"), ("b", "y")])]

theorem extra_block_offender {ord : List String → List String} (hord : ValidOrder ord)
    {en_us data : LangTable} {lang k : String}
    (hk : k ∈ keys data) (hk2 : k ∉ keys en_us) :
    ("- " ++ k) ∈ extra_block ord en_us lang data ∧
    ("⚠ " ++ lang ++ ".json contains translations that don't exist in en_us.json (" ++
        toString (extra_keys_of en_us data).length ++ " found):") ∈
      extra_block ord en_us lang data := by
  have hmem : k ∈ extra_keys_of en_us data := mem_extra_keys_of.2 ⟨hk, hk2⟩
  have hne : ¬((extra_keys_of en_us data).isEmpty = true) := by
    cases h : extra_keys_of en_us data with
    | nil => rw [h] at hmem; cases hmem
    | cons a l => simp [h]
  unfold extra_block
  rw [if_neg hne]
  refine ⟨List.mem_cons_of_mem _ ?_, List.mem_cons_self _ _⟩
  exact List.mem_map_of_mem _ ((hord _).mem_iff.2 hmem)

/-- C1: the extra-keys check passes, emitting exactly its confirmation line,
iff every language's key set is a subset of the reference key set; and every
offending language and every offending key is reported in the emitted lines
(so a failure raises only after reporting them all). -/
theorem extra_keys_check_correct (ord : List String → List String) (hord : ValidOrder ord)
    (en_us : LangTable) (translations : Translations) :
    ((check_extra_keys ord en_us translations).2 = none ↔
      ∀ p ∈ translations, ∀ k ∈ keys p.2, k ∈ keys en_us) ∧
    ((check_extra_keys ord en_us translations).2 = none →
      (check_extra_keys ord en_us translations).1 = ["✅ No extra keys found"]) ∧
    (∀ p ∈ translations, ∀ k ∈ keys p.2, k ∉ keys en_us →
      ("- " ++ k) ∈ (check_extra_keys ord en_us translations).1 ∧
      ("⚠ " ++ p.1 ++ ".json contains translations that don't exist in en_us.json (" ++
          toString (extra_keys_of en_us p.2).length ++ " found):") ∈
        (check_extra_keys ord en_us translations).1) := by
  have hcond :
      (translations.any (fun p => !(extra_keys_of en_us p.2).isEmpty) = false) ↔
        ∀ p ∈ translations, ∀ k ∈ keys p.2, k ∈ keys en_us := by
    rw [List.any_eq_false]
    constructor
    · intro h p hp
      have := h p hp
      simp only [Bool.not_eq_true', Bool.not_eq_false] at this
      rw [List.isEmpty_iff] at this
      exact extra_keys_of_eq_nil.1 this
    · intro h p hp
      simp only [Bool.not_eq_true', Bool.not_eq_false]
      rw [List.isEmpty_iff]
      exact extra_keys_of_eq_nil.2 (h p hp)
  refine ⟨?_, ?_, ?_⟩
  · unfold check_extra_keys
    cases hb : translations.any (fun p => !(extra_keys_of en_us p.2).isEmpty) with
    | false =>
      rw [if_neg Bool.false_ne_true]
      simp only [true_iff]
      exact hcond.1 hb
    | true =>
      rw [if_pos rfl]
      simp only [Option.some_ne_none, false_iff]
      intro hall
      rw [hcond.2 hall] at hb
      cases hb
  · unfold check_extra_keys
    cases hb : translations.any (fun p => !(extra_keys_of en_us p.2).isEmpty) with
    | false =>
      rw [if_neg Bool.false_ne_true]
      intro _
      have hnil :
          (translations.map (fun p => extra_block ord en_us p.1 p.2)).flatten = [] := by
        rw [List.flatten_eq_nil_iff]
        intro l hl
        rw [List.mem_map] at hl
        obtain ⟨p, hp, rfl⟩ := hl
        have hempty : extra_keys_of en_us p.2 = [] :=
          extra_keys_of_eq_nil.2 (hcond.1 hb p hp)
        unfold extra_block
        rw [if_pos (by rw [hempty]; rfl)]
      rw [hnil]
      rfl
    | true =>
      rw [if_pos rfl]
      intro hc
      cases hc
  · intro p hp k hk hk2
    have hblock := @extra_block_offender ord hord en_us p.2 p.1 k hk hk2
    have hflat : ∀ s, s ∈ extra_block ord en_us p.1 p.2 →
        s ∈ (translations.map (fun q => extra_block ord en_us q.1 q.2)).flatten := by
      intro s hs
      exact List.mem_flatten_of_mem (List.mem_map_of_mem _ hp) hs
    unfold check_extra_keys
    cases hb : translations.any (fun q => !(extra_keys_of en_us q.2).isEmpty) with
    | false =>
      rw [if_neg Bool.false_ne_true]
      exact ⟨List.mem_append_left _ (hflat _ hblock.1),
        List.mem_append_left _ (hflat _ hblock.2)⟩
    | true =>
      rw [if_pos rfl]
      exact ⟨hflat _ hblock.1, hflat _ hblock.2⟩

theorem extra_keys_check_correct_witness :
    ValidOrder (fun l : List String => l) ∧
    ((check_extra_keys (fun l => l) [("a", "x")] [("de", [("a", "y"), ("c", "w")])]).2 ≠ none) ∧
    ("- " ++ "c") ∈ (check_extra_keys (fun l => l) [("a", "x")]
      [("de", [("a", "y"), ("c", "w")])]).1 := by
  have hord : ValidOrder (fun l : List String => l) := fun l => List.Perm.refl l
  have h := extra_keys_check_correct (fun l => l) hord [("a", "x")]
    [("de", [("a", "y"), ("c", "w")])]
  refine ⟨hord, ?_, ?_⟩
  · intro hnone
    have := h.1.1 hnone ("de", [("a", "y"), ("c", "w")]) (by decide) "c" (by decide)
    revert this
    decide
  · exact (h.2.2 ("de", [("a", "y"), ("c", "w")]) (by decide) "c" (by decide) (by decide)).1

theorem known_issues_fail_of_mem {en_us : LangTable} {translations : Translations} {s : String}
    (hs : s ∈ known_issue_lines translations) :
    s ∈ (check_known_issues en_us translations).1 ∧
    (check_known_issues en_us translations).2 =
      some (PyError.validation "Found known issues in one or more translation files") := by
  have hne : ¬((known_issue_lines translations).isEmpty = true) := by
    cases h : known_issue_lines translations with
    | nil => rw [h] at hs; cases hs
    | cons a l => simp [h]
  unfold check_known_issues
  rw [if_neg hne]
  exact ⟨hs, rfl⟩

theorem mem_typo_lines {lang key value typo correct : String}
    (htc : (typo, correct) ∈ known_typos) (hsub : substr typo value = true) :
    ∀ s ∈ typo_warning lang key value typo correct, s ∈ typo_lines lang key value := by
  intro s hs
  unfold typo_lines
  refine List.mem_flatten_of_mem ?_ hs
  have heq : (fun tc : String × String =>
      if substr tc.1 value then typo_warning lang key value tc.1 tc.2 else [])
        (typo, correct) = typo_warning lang key value typo correct := by
    simp [hsub]
  rw [← heq]
  exact List.mem_map_of_mem _ htc

theorem mem_known_issue_lines_typo {translations : Translations} {lang : String}
    {data : LangTable} {key value : String} (hld : (lang, data) ∈ translations)
    (hkv : (key, value) ∈ data) {s : String} (hs : s ∈ typo_lines lang key value) :
    s ∈ known_issue_lines translations := by
  unfold known_issue_lines
  apply List.mem_append_left
  refine List.mem_flatten_of_mem (List.mem_map_of_mem _ hld) ?_
  refine List.mem_flatten_of_mem ?_ hs
  have heq : (fun kv : String × String => typo_lines lang kv.1 kv.2) (key, value) =
      typo_lines lang key value := rfl
  rw [← heq]
  exact List.mem_map_of_mem _ hkv

/-- C8: the typo rule uses a fixed table of exactly 8 typo-to-correct pairs,
among them LegitKillaura to KillauraLegit; whenever a typo substring occurs
anywhere in a translated value (as in "Has LegitKillaura"), the check
reports the incorrect substring, the correct substring, and the value, and
fails. -/
theorem known_typos_rule_correct :
    known_typos.length = 8 ∧
    ("LegitKillaura", "KillauraLegit") ∈ known_typos ∧
    substr "LegitKillaura" "Has LegitKillaura" = true ∧
    (∀ en_us translations lang data key value typo correct,
      (lang, data) ∈ translations → (key, value) ∈ data →
      (typo, correct) ∈ known_typos → substr typo value = true →
      ("⚠ In " ++ lang ++ ".json string " ++ key ++ ", the word '" ++ correct ++
          "' is incorrectly translated as '" ++ typo ++ "':") ∈
        (check_known_issues en_us translations).1 ∧
      ("  \"" ++ key ++ "\": \"" ++ value ++ "\"") ∈ (check_known_issues en_us translations).1 ∧
      (check_known_issues en_us translations).2 =
        some (PyError.validation "Found known issues in one or more translation files")) := by
  refine ⟨by decide, by decide, by decide, ?_⟩
  intro en_us translations lang data key value typo correct hld hkv htc hsub
  have h1 : ("⚠ In " ++ lang ++ ".json string " ++ key ++ ", the word '" ++ correct ++
      "' is incorrectly translated as '" ++ typo ++ "':") ∈
      typo_warning lang key value typo correct := by
    unfold typo_warning
    exact List.mem_cons_self _ _
  have h2 : ("  \"" ++ key ++ "\": \"" ++ value ++ "\"") ∈
      typo_warning lang key value typo correct := by
    unfold typo_warning
    simp
  have m1 := @known_issues_fail_of_mem en_us translations _
    (mem_known_issue_lines_typo hld hkv (mem_typo_lines htc hsub _ h1))
  have m2 := @known_issues_fail_of_mem en_us translations _
    (mem_known_issue_lines_typo hld hkv (mem_typo_lines htc hsub _ h2))
  exact ⟨m1.1, m2.1, m1.2⟩

theorem known_typos_rule_correct_witness :
    ("⚠ In " ++ "de" ++ ".json string " ++ "k" ++ ", the word '" ++ "KillauraLegit" ++
        "' is incorrectly translated as '" ++ "LegitKillaura" ++ "':") ∈
      (check_known_issues [] [("de", [("k", "Has LegitKillaura")])]).1 ∧
    (check_known_issues [] [("de", [("k", "Has LegitKillaura")])]).2 =
      some (PyError.validation "Found known issues in one or more translation files") := by
  have h := known_typos_rule_correct.2.2.2 [] [("de", [("k", "Has LegitKillaura")])]
    "de" [("k", "Has LegitKillaura")] "k" "Has LegitKillaura" "LegitKillaura" "KillauraLegit"
    (by decide) (by decide) (by decide) (by decide)
  exact ⟨h.1, h.2.2⟩

/-- C9: the radar content rule flags an untranslated-color warning exactly
when the radar key is present in a language's table and its value contains
one of the three substrings checked by the source; the orange color code is
not checked, so a value that is just the orange code is never flagged. -/
theorem radar_rule_correct :
    (∀ lang data, radar_lines lang data ≠ [] ↔
      ∃ v, List.lookup radar_key data = some v ∧ radar_flagged v = true) ∧
    radar_flagged "§6orange§r" = false ∧
    (∀ lang, radar_lines lang [(radar_key, "§6orange§r")] = []) ∧
    (∀ en_us translations lang data v,
      (lang, data) ∈ translations → List.lookup radar_key data = some v →
      radar_flagged v = true →
      ("⚠ In " ++ lang ++ ".json, the translation for " ++ radar_key ++
          " contains untranslated colors:") ∈ (check_known_issues en_us translations).1 ∧
      (check_known_issues en_us translations).2 =
        some (PyError.validation "Found known issues in one or more translation files")) := by
  refine ⟨?_, by decide, fun lang => rfl, ?_⟩
  · intro lang data
    unfold radar_lines
    cases hl : List.lookup radar_key data with
    | none => simp
    | some v =>
      cases hf : radar_flagged v with
      | false => simp [hf]
      | true => simp [hf]
  · intro en_us translations lang data v hld hl hf
    have hmem : ("⚠ In " ++ lang ++ ".json, the translation for " ++ radar_key ++
        " contains untranslated colors:") ∈ radar_lines lang data := by
      unfold radar_lines
      rw [hl]
      simp [hf]
    have hki : ("⚠ In " ++ lang ++ ".json, the translation for " ++ radar_key ++
        " contains untranslated colors:") ∈ known_issue_lines translations := by
      unfold known_issue_lines
      apply List.mem_append_right
      refine List.mem_flatten_of_mem (List.mem_map_of_mem _ hld) ?_
      exact List.mem_append_right _ hmem
    exact known_issues_fail_of_mem hki

theorem radar_rule_correct_witness :
    ("⚠ In " ++ "fr" ++ ".json, the translation for " ++ radar_key ++
        " contains untranslated colors:") ∈
      (check_known_issues [] [("fr", [(radar_key, "shows §cred§r dots")])]).1 ∧
    (check_known_issues [] [("fr", [(radar_key, "shows §cred§r dots")])]).2 =
      some (PyError.validation "Found known issues in one or more translation files") :=
  radar_rule_correct.2.2.2 [] [("fr", [(radar_key, "shows §cred§r dots")])]
    "fr" [(radar_key, "shows §cred§r dots")] "shows §cred§r dots"
    (by decide) (by decide) (by decide)

theorem lookup_some_of_mem_keys {t : LangTable} {k : String} (h : k ∈ keys t) :
    ∃ v, List.lookup k t = some v := by
  cases hl : List.lookup k t with
  | some v => exact ⟨v, rfl⟩
  | none =>
    rw [List.lookup_eq_none_iff] at hl
    unfold keys at h
    rw [List.mem_map] at h
    obtain ⟨p, hp, hpk⟩ := h
    have hne := hl p hp
    rw [bne_iff_ne] at hne
    exact absurd hpk.symm hne

theorem lookup_none_of_not_mem_keys {t : LangTable} {k : String} (h : k ∉ keys t) :
    List.lookup k t = none := by
  rw [List.lookup_eq_none_iff]
  intro p hp
  rw [bne_iff_ne]
  intro hk
  apply h
  unfold keys
  rw [List.mem_map]
  exact ⟨p, hp, hk.symm⟩

theorem mem_keys_of_lookup_some {t : LangTable} {k v : String}
    (h : List.lookup k t = some v) : k ∈ keys t := by
  by_contra hmem
  rw [lookup_none_of_not_mem_keys hmem] at h
  cases h

/-- The test of src/main.py:57-58 for one entry of one language: the value
equals the reference value and the pair is not exempted. -/
def flagged (en_us : LangTable) (ex : Exemptions) (lang : String)
    (kv : String × String) : Bool :=
  (List.lookup kv.1 en_us == some kv.2) && !(exempt ex lang kv.1)

theorem untranslated_keys_of_ok {en_us : LangTable} {ex : Exemptions} {lang : String}
    {data : LangTable} (h : ∀ k ∈ keys data, k ∈ keys en_us) :
    untranslated_keys_of en_us ex lang data =
      Except.ok ((data.filter (flagged en_us ex lang)).map Prod.fst) := by
  induction data with
  | nil => rfl
  | cons kv rest ih =>
    obtain ⟨k, v⟩ := kv
    have hk : k ∈ keys en_us := by
      apply h
      unfold keys
      exact List.mem_map_of_mem _ (List.mem_cons_self _ _)
    obtain ⟨ev, hev⟩ := lookup_some_of_mem_keys hk
    have hrest : ∀ k2 ∈ keys rest, k2 ∈ keys en_us := by
      intro k2 hk2
      apply h
      unfold keys at hk2 ⊢
      rw [List.mem_map] at hk2 ⊢
      obtain ⟨p, hp, hpk⟩ := hk2
      exact ⟨p, List.mem_cons_of_mem _ hp, hpk⟩
    simp only [untranslated_keys_of, hev, ih hrest, List.filter_cons, flagged]
    by_cases hveq : v = ev
    · subst hveq
      cases hex : exempt ex lang k <;> simp [hex]
    · have h1 : (v == ev) = false := beq_eq_false_iff_ne.2 hveq
      have h2 : ((List.lookup k en_us == some v) : Bool) = false := by
        rw [hev, beq_eq_false_iff_ne]
        intro hc
        injection hc with hc
        exact hveq hc.symm
      simp [h1, h2, hev]
      rw [if_neg (fun hc => hveq hc.1.symm)]

theorem untranslated_keys_of_ok_sub {en_us : LangTable} {ex : Exemptions} {lang : String}
    {data : LangTable} {us : List String}
    (h : untranslated_keys_of en_us ex lang data = Except.ok us) :
    ∀ k ∈ keys data, k ∈ keys en_us := by
  induction data generalizing us with
  | nil => intro k hk; cases hk
  | cons kv rest ih =>
    obtain ⟨k0, v0⟩ := kv
    intro k hk
    cases hl : List.lookup k0 en_us with
    | none =>
      simp only [untranslated_keys_of, hl] at h
      exact Except.noConfusion h
    | some ev =>
      cases hr : untranslated_keys_of en_us ex lang rest with
      | error e =>
        simp only [untranslated_keys_of, hl, hr] at h
        exact Except.noConfusion h
      | ok us2 =>
        unfold keys at hk
        rw [List.mem_map] at hk
        obtain ⟨p, hp, hpk⟩ := hk
        rcases List.mem_cons.1 hp with heq | hmem
        · subst heq
          rw [← hpk]
          exact mem_keys_of_lookup_some hl
        · apply ih hr
          unfold keys
          rw [List.mem_map]
          exact ⟨p, hmem, hpk⟩

theorem untranslated_keys_of_error_not_mem {en_us : LangTable} {ex : Exemptions}
    {lang : String} {data : LangTable} {e : String}
    (h : untranslated_keys_of en_us ex lang data = Except.error e) : e ∉ keys en_us := by
  induction data with
  | nil => cases h
  | cons kv rest ih =>
    obtain ⟨k0, v0⟩ := kv
    cases hl : List.lookup k0 en_us with
    | none =>
      simp only [untranslated_keys_of, hl, Except.error.injEq] at h
      subst h
      intro hmem
      obtain ⟨v2, hv2⟩ := lookup_some_of_mem_keys hmem
      rw [hl] at hv2
      cases hv2
    | some ev =>
      cases hr : untranslated_keys_of en_us ex lang rest with
      | error e2 =>
        simp only [untranslated_keys_of, hl, hr, Except.error.injEq] at h
        subst h
        exact ih hr
      | ok us =>
        simp only [untranslated_keys_of, hl, hr] at h
        exact Except.noConfusion h

theorem untranslated_keys_of_error_of_missing {en_us : LangTable} {ex : Exemptions}
    {lang : String} {data : LangTable}
    (h : ∃ k ∈ keys data, k ∉ keys en_us) :
    ∃ e, untranslated_keys_of en_us ex lang data = Except.error e := by
  induction data with
  | nil =>
    obtain ⟨k, hk, _⟩ := h
    cases hk
  | cons kv rest ih =>
    obtain ⟨k0, v0⟩ := kv
    cases hl : List.lookup k0 en_us with
    | none => exact ⟨k0, by simp only [untranslated_keys_of, hl]⟩
    | some ev =>
      have hrest : ∃ k ∈ keys rest, k ∉ keys en_us := by
        obtain ⟨k, hk, hk2⟩ := h
        unfold keys at hk
        rw [List.mem_map] at hk
        obtain ⟨p, hp, hpk⟩ := hk
        rcases List.mem_cons.1 hp with heq | hmem
        · exfalso
          apply hk2
          subst heq
          rw [← hpk]
          exact mem_keys_of_lookup_some hl
        · refine ⟨k, ?_, hk2⟩
          unfold keys
          rw [List.mem_map]
          exact ⟨p, hmem, hpk⟩
      obtain ⟨e, he⟩ := ih hrest
      exact ⟨e, by simp only [untranslated_keys_of, hl, he]⟩

theorem flagged_filter_eq_nil {en_us : LangTable} {ex : Exemptions} {lang : String}
    {data : LangTable} :
    (data.filter (flagged en_us ex lang)).map Prod.fst = [] ↔
      ∀ kv ∈ data, List.lookup kv.1 en_us = some kv.2 → exempt ex lang kv.1 = true := by
  rw [List.map_eq_nil_iff, List.filter_eq_nil_iff]
  constructor
  · intro h kv hkv hl
    have hc := h kv hkv
    unfold flagged at hc
    rw [hl] at hc
    simp at hc
    exact hc
  · intro h kv hkv
    unfold flagged
    simp only [Bool.and_eq_true, Bool.not_eq_true', not_and, beq_iff_eq]
    intro hbeq
    simp [h kv hkv hbeq]

theorem cus_go_none_iff {ord : List String → List String} {en_us : LangTable}
    {ex : Exemptions} {ts : Translations} :
    ∀ found : Bool, (∀ p ∈ ts, ∀ k ∈ keys p.2, k ∈ keys en_us) →
    ((cus_go ord en_us ex ts found).2 = none ↔
      (found = false ∧ ∀ p ∈ ts, ∀ kv ∈ p.2,
        List.lookup kv.1 en_us = some kv.2 → exempt ex p.1 kv.1 = true)) := by
  induction ts with
  | nil =>
    intro found _
    cases found with
    | false => simp [cus_go]
    | true => simp [cus_go]
  | cons p rest ih =>
    intro found h
    obtain ⟨lang, data⟩ := p
    have hd : ∀ k ∈ keys data, k ∈ keys en_us := h (lang, data) (List.mem_cons_self _ _)
    have hrest : ∀ p ∈ rest, ∀ k ∈ keys p.2, k ∈ keys en_us :=
      fun p hp => h p (List.mem_cons_of_mem _ hp)
    simp only [cus_go, untranslated_keys_of_ok hd]
    rw [ih _ hrest]
    simp only [Bool.or_eq_false_iff, Bool.not_eq_false', List.isEmpty_iff,
      List.dedup_eq_nil, List.forall_mem_cons, flagged_filter_eq_nil]
    tauto

theorem cus_go_err_cases {ord : List String → List String} {en_us : LangTable}
    {ex : Exemptions} {ts : Translations} :
    ∀ found : Bool, (∀ p ∈ ts, ∀ k ∈ keys p.2, k ∈ keys en_us) →
    (cus_go ord en_us ex ts found).2 = none ∨
    (cus_go ord en_us ex ts found).2 =
      some (PyError.validation "Found untranslated strings in one or more translation files") := by
  induction ts with
  | nil =>
    intro found _
    cases found with
    | false => left; rfl
    | true => right; rfl
  | cons p rest ih =>
    intro found h
    obtain ⟨lang, data⟩ := p
    have hd : ∀ k ∈ keys data, k ∈ keys en_us := h (lang, data) (List.mem_cons_self _ _)
    simp only [cus_go, untranslated_keys_of_ok hd]
    exact ih _ (fun p hp => h p (List.mem_cons_of_mem _ hp))

theorem cus_go_keyError_of_missing {ord : List String → List String} {en_us : LangTable}
    {ex : Exemptions} {ts : Translations} {lang : String} {data : LangTable} {k : String} :
    ∀ found : Bool, (lang, data) ∈ ts → k ∈ keys data → k ∉ keys en_us →
    ∃ e, (cus_go ord en_us ex ts found).2 = some (PyError.keyError e) ∧ e ∉ keys en_us := by
  induction ts with
  | nil =>
    intro found hld
    cases hld
  | cons p rest ih =>
    intro found hld hk hk2
    obtain ⟨lang0, data0⟩ := p
    cases herr : untranslated_keys_of en_us ex lang0 data0 with
    | error e =>
      refine ⟨e, ?_, untranslated_keys_of_error_not_mem herr⟩
      simp only [cus_go, herr]
    | ok us0 =>
      rcases List.mem_cons.1 hld with heq | hmem
      · exfalso
        have hsub := untranslated_keys_of_ok_sub herr
        cases heq
        exact hk2 (hsub k hk)
      · obtain ⟨e, he, hen⟩ := ih _ hmem hk hk2
        refine ⟨e, ?_, hen⟩
        simp only [cus_go, herr]
        exact he

theorem cus_go_mem_offender {ord : List String → List String} (hord : ValidOrder ord)
    {en_us : LangTable} {ex : Exemptions} {ts : Translations}
    {lang : String} {data : LangTable} {k v : String} :
    ∀ found : Bool, (∀ p ∈ ts, ∀ k2 ∈ keys p.2, k2 ∈ keys en_us) →
    (lang, data) ∈ ts → (k, v) ∈ data →
    List.lookup k en_us = some v → exempt ex lang k = false →
    ("- " ++ k ++ ": " ++ v) ∈ (cus_go ord en_us ex ts found).1 := by
  induction ts with
  | nil =>
    intro found _ hld
    cases hld
  | cons p rest ih =>
    intro found h hld hkv hl hex
    obtain ⟨lang0, data0⟩ := p
    have hd : ∀ k2 ∈ keys data0, k2 ∈ keys en_us := h (lang0, data0) (List.mem_cons_self _ _)
    have hrest : ∀ p ∈ rest, ∀ k2 ∈ keys p.2, k2 ∈ keys en_us :=
      fun p hp => h p (List.mem_cons_of_mem _ hp)
    simp only [cus_go, untranslated_keys_of_ok hd]
    rcases List.mem_cons.1 hld with heq | hmem
    · cases heq
      apply List.mem_append_left
      have hk0 : k ∈ (data.filter (flagged en_us ex lang)).map Prod.fst := by
        have hf : (k, v) ∈ data.filter (flagged en_us ex lang) := by
          rw [List.mem_filter]
          refine ⟨hkv, ?_⟩
          unfold flagged
          rw [hl, hex]
          simp
        exact List.mem_map_of_mem _ hf
      have hkus : k ∈ ((data.filter (flagged en_us ex lang)).map Prod.fst).dedup :=
        List.mem_dedup.2 hk0
      have hne : ¬((((data.filter (flagged en_us ex lang)).map Prod.fst).dedup).isEmpty
          = true) := by
        cases hus : ((data.filter (flagged en_us ex lang)).map Prod.fst).dedup with
        | nil => rw [hus] at hkus; cases hkus
        | cons a l => simp [hus]
      unfold untranslated_block
      rw [if_neg hne]
      apply List.mem_cons_of_mem
      apply List.mem_append_left
      apply List.mem_append_left
      apply List.mem_append_left
      have hm : ("- " ++ k ++ ": " ++ ((List.lookup k en_us).getD "")) ∈
          (ord (((data.filter (flagged en_us ex lang)).map Prod.fst).dedup)).map
            (fun k2 => "- " ++ k2 ++ ": " ++ ((List.lookup k2 en_us).getD "")) :=
        List.mem_map_of_mem _ ((hord _).mem_iff.2 hkus)
      rw [hl] at hm
      exact hm
    · apply List.mem_append_right
      exact ih _ hrest hmem hkv hl hex

/-- C2: assuming every translation key exists in the reference (the situation
in which the driver reaches this check), the untranslated-strings check
passes iff every key whose value equals the reference value is exempted;
every unexempted identical pair is reported with its shared value in the
emitted lines; and a failure is the aggregate `ValidationError`, raised only
after the collection loop finished. -/
theorem untranslated_check_correct (ord : List String → List String) (hord : ValidOrder ord)
    (en_us : LangTable) (translations : Translations) (ex : Exemptions)
    (hsub : ∀ p ∈ translations, ∀ k ∈ keys p.2, k ∈ keys en_us) :
    ((check_untranslated_strings ord en_us translations ex).2 = none ↔
      ∀ p ∈ translations, ∀ kv ∈ p.2,
        List.lookup kv.1 en_us = some kv.2 → exempt ex p.1 kv.1 = true) ∧
    (∀ p ∈ translations, ∀ kv ∈ p.2,
      List.lookup kv.1 en_us = some kv.2 → exempt ex p.1 kv.1 = false →
      ("- " ++ kv.1 ++ ": " ++ kv.2) ∈ (check_untranslated_strings ord en_us translations ex).1) ∧
    (∀ e, (check_untranslated_strings ord en_us translations ex).2 = some e →
      e = PyError.validation "Found untranslated strings in one or more translation files") := by
  refine ⟨?_, ?_, ?_⟩
  · unfold check_untranslated_strings
    rw [cus_go_none_iff false hsub]
    simp
  · intro p hp kv hkv hl hex
    obtain ⟨lang, data⟩ := p
    obtain ⟨k, v⟩ := kv
    exact cus_go_mem_offender hord false hsub hp hkv hl hex
  · intro e he
    unfold check_untranslated_strings at he
    rcases cus_go_err_cases false hsub with h | h
    · rw [h] at he
      cases he
    · rw [h] at he
      injection he with he
      exact he.symm

theorem untranslated_check_correct_witness :
    ValidOrder (fun l : List String => l) ∧
    ("- " ++ "a" ++ ": " ++ "X") ∈
      (check_untranslated_strings (fun l => l) [("a", "X"), ("b", "Y")]
        [("fr", [("a", "X"), ("b", "Z")])] []).1 := by
  have hord : ValidOrder (fun l : List String => l) := fun l => List.Perm.refl l
  refine ⟨hord, ?_⟩
  exact (untranslated_check_correct (fun l => l) hord [("a", "X"), ("b", "Y")]
      [("fr", [("a", "X"), ("b", "Z")])] [] (by decide)).2.1
    ("fr", [("a", "X"), ("b", "Z")]) (by decide) ("a", "X") (by decide) (by decide) (by decide)

theorem check_extra_keys_none_iff (ord : List String → List String) (en_us : LangTable)
    (translations : Translations) :
    (check_extra_keys ord en_us translations).2 = none ↔
      ∀ p ∈ translations, ∀ k ∈ keys p.2, k ∈ keys en_us := by
  have hcond :
      (translations.any (fun p => !(extra_keys_of en_us p.2).isEmpty) = false) ↔
        ∀ p ∈ translations, ∀ k ∈ keys p.2, k ∈ keys en_us := by
    rw [List.any_eq_false]
    constructor
    · intro h p hp
      have := h p hp
      simp only [Bool.not_eq_true', Bool.not_eq_false] at this
      rw [List.isEmpty_iff] at this
      exact extra_keys_of_eq_nil.1 this
    · intro h p hp
      simp only [Bool.not_eq_true', Bool.not_eq_false]
      rw [List.isEmpty_iff]
      exact extra_keys_of_eq_nil.2 (h p hp)
  unfold check_extra_keys
  cases hb : translations.any (fun p => !(extra_keys_of en_us p.2).isEmpty) with
  | false =>
    rw [if_neg Bool.false_ne_true]
    simp only [true_iff]
    exact hcond.1 hb
  | true =>
    rw [if_pos rfl]
    simp only [Option.some_ne_none, false_iff]
    intro hall
    rw [hcond.2 hall] at hb
    cases hb

theorem stats_err_cases (en_us : LangTable) (translations : Translations) :
    (show_translation_stats en_us translations).2 = none ∨
    (show_translation_stats en_us translations).2 = some PyError.zeroDivision := by
  unfold show_translation_stats
  by_cases h : en_us.length = 0 ∧ translations ≠ []
  · rw [if_pos h]; right; rfl
  · rw [if_neg h]; left; rfl

theorem extra_err_cases (ord : List String → List String) (en_us : LangTable)
    (translations : Translations) :
    (check_extra_keys ord en_us translations).2 = none ∨
    (check_extra_keys ord en_us translations).2 =
      some (PyError.validation "Found extra keys in one or more translation files") := by
  unfold check_extra_keys
  by_cases h : (translations.any fun p => !(extra_keys_of en_us p.2).isEmpty) = true
  · rw [if_pos h]; right; rfl
  · rw [if_neg h]; left; rfl

theorem order_err_cases (en_us : LangTable) (translations : Translations) :
    (check_order_of_strings en_us translations).2 = none ∨
    ∃ lang, (check_order_of_strings en_us translations).2 =
      some (PyError.validation
        ("⚠ The order of strings in " ++ lang ++ ".json is different from en_us.json")) := by
  unfold check_order_of_strings
  cases h : translations.find? (fun p => order_mismatch en_us p.2) with
  | none => left; rfl
  | some q => right; exact ⟨q.1, rfl⟩

theorem known_err_cases (en_us : LangTable) (translations : Translations) :
    (check_known_issues en_us translations).2 = none ∨
    (check_known_issues en_us translations).2 =
      some (PyError.validation "Found known issues in one or more translation files") := by
  unfold check_known_issues
  by_cases h : (known_issue_lines translations).isEmpty = true
  · rw [if_pos h]; left; rfl
  · rw [if_neg h]; right; rfl

theorem main_checks_no_keyError (ord : List String → List String) (en_us : LangTable)
    (translations : Translations) (ex : Exemptions) (w : Bool) (k : String) :
    (main_checks ord en_us translations ex w).2 ≠ some (PyError.keyError k) := by
  rcases stats_err_cases en_us translations with h1 | h1
  · rcases extra_err_cases ord en_us translations with h2 | h2
    · have hsub := (check_extra_keys_none_iff ord en_us translations).1 h2
      rcases @cus_go_err_cases ord en_us ex translations false hsub with h3 | h3
      · rcases order_err_cases en_us translations with h4 | h4
        · cases w with
          | false => simp [main_checks, h1, h2, check_untranslated_strings, h3, h4]
          | true =>
            rcases known_err_cases en_us translations with h5 | h5 <;>
              simp [main_checks, h1, h2, check_untranslated_strings, h3, h4, h5]
        · obtain ⟨lang, h4⟩ := h4
          simp [main_checks, h1, h2, check_untranslated_strings, h3, h4]
      · simp [main_checks, h1, h2, check_untranslated_strings, h3]
    · simp [main_checks, h1, h2]
  · simp [main_checks, h1]

/-- C10: calling the untranslated-strings check directly on an input where
some language has a key absent from the reference raises a key-lookup error
(never the check's own `ValidationError`), because `en_us[key]` is
unguarded; but under the driver's ordering the whole pipeline can never
raise a key-lookup error, since the extra-keys check runs first and raises
whenever such a key exists. -/
theorem untranslated_lookup_unguarded :
    (∀ (ord : List String → List String) (en_us : LangTable) (translations : Translations)
      (ex : Exemptions) (lang : String) (data : LangTable) (k : String),
      (lang, data) ∈ translations → k ∈ keys data → k ∉ keys en_us →
      ∃ e, (check_untranslated_strings ord en_us translations ex).2 =
          some (PyError.keyError e) ∧ e ∉ keys en_us) ∧
    (∀ (ord : List String → List String) (en_us : LangTable) (translations : Translations)
      (ex : Exemptions) (w : Bool) (k : String),
      (main_checks ord en_us translations ex w).2 ≠ some (PyError.keyError k)) := by
  constructor
  · intro ord en_us translations ex lang data k hld hk hk2
    exact cus_go_keyError_of_missing false hld hk hk2
  · exact main_checks_no_keyError

theorem untranslated_lookup_unguarded_witness :
    (∃ e, (check_untranslated_strings (fun l => l) [("a", "x")] [("de", [("c", "w")])] []).2 =
        some (PyError.keyError e) ∧ e ∉ keys [("a", "x")]) ∧
    (main_checks (fun l => l) [("a", "x")] [("de", [("c", "w")])] [] true).2 ≠
      some (PyError.keyError "c") :=
  ⟨untranslated_lookup_unguarded.1 (fun l => l) [("a", "x")] [("de", [("c", "w")])] []
      "de" [("c", "w")] "c" (by decide) (by decide) (by decide),
    untranslated_lookup_unguarded.2 (fun l => l) [("a", "x")] [("de", [("c", "w")])] [] true "c"⟩

/-- C6 counterexample: on an input where the extra-keys check fails while
the untranslated-strings check would also have findings (key "a" identical
and unexempted), the driver terminates with the extra-keys error and the
report contains neither the untranslated finding nor any order-check line:
the later checks did not run. -/
theorem driver_short_circuit_counterexample :
    ((main_checks (fun l => l) [("a", "X")] [("de", [("a", "X"), ("c", "W")])] [] true).2 =
      some (PyError.validation "Found extra keys in one or more translation files")) ∧
    ("- a: X" ∉
      (main_checks (fun l => l) [("a", "X")] [("de", [("a", "X"), ("c", "W")])] [] true).1) ∧
    ("✅ The order of strings in each translation file matches en_us.json" ∉
      (main_checks (fun l => l) [("a", "X")] [("de", [("a", "X"), ("c", "W")])] [] true).1) := by
  decide

/-- C6 amended: when a check raises, the driver propagates the exception at
once: the invocation terminates with that error and the later checks do not
run, so the report contains only the lines emitted up to and including the
failing check. -/
theorem driver_short_circuit_amended (ord : List String → List String) (en_us : LangTable)
    (translations : Translations) (ex : Exemptions) (w : Bool) :
    (∀ e, (show_translation_stats en_us translations).2 = some e →
      main_checks ord en_us translations ex w =
        ((show_translation_stats en_us translations).1, some e)) ∧
    (∀ e, (show_translation_stats en_us translations).2 = none →
      (check_extra_keys ord en_us translations).2 = some e →
      main_checks ord en_us translations ex w =
        ((show_translation_stats en_us translations).1 ++
          (check_extra_keys ord en_us translations).1, some e)) ∧
    (∀ e, (show_translation_stats en_us translations).2 = none →
      (check_extra_keys ord en_us translations).2 = none →
      (check_untranslated_strings ord en_us translations ex).2 = some e →
      main_checks ord en_us translations ex w =
        ((show_translation_stats en_us translations).1 ++
          (check_extra_keys ord en_us translations).1 ++
          (check_untranslated_strings ord en_us translations ex).1, some e)) ∧
    (∀ e, (show_translation_stats en_us translations).2 = none →
      (check_extra_keys ord en_us translations).2 = none →
      (check_untranslated_strings ord en_us translations ex).2 = none →
      (check_order_of_strings en_us translations).2 = some e →
      main_checks ord en_us translations ex w =
        ((show_translation_stats en_us translations).1 ++
          (check_extra_keys ord en_us translations).1 ++
          (check_untranslated_strings ord en_us translations ex).1 ++
          (check_order_of_strings en_us translations).1, some e)) := by
  refine ⟨?_, ?_, ?_, ?_⟩
  · intro e h1
    simp [main_checks, h1]
  · intro e h1 h2
    simp [main_checks, h1, h2]
  · intro e h1 h2 h3
    simp [main_checks, h1, h2, h3]
  · intro e h1 h2 h3 h4
    simp [main_checks, h1, h2, h3, h4]

theorem driver_short_circuit_amended_witness :
    main_checks (fun l => l) [("a", "X")] [("de", [("a", "X"), ("c", "W")])] [] true =
      ((show_translation_stats [("a", "X")] [("de", [("a", "X"), ("c", "W")])]).1 ++
        (check_extra_keys (fun l => l) [("a", "X")] [("de", [("a", "X"), ("c", "W")])]).1,
       some (PyError.validation "Found extra keys in one or more translation files")) :=
  (driver_short_circuit_amended (fun l => l) [("a", "X")]
      [("de", [("a", "X"), ("c", "W")])] [] true).2.1
    (PyError.validation "Found extra keys in one or more translation files")
    (by decide) (by decide)

theorem cus_go_err_ord_eq (ord1 ord2 : List String → List String) {en_us : LangTable}
    {ex : Exemptions} {ts : Translations} :
    ∀ found : Bool, (cus_go ord1 en_us ex ts found).2 = (cus_go ord2 en_us ex ts found).2 := by
  induction ts with
  | nil => intro found; rfl
  | cons p rest ih =>
    intro found
    obtain ⟨lang, data⟩ := p
    cases herr : untranslated_keys_of en_us ex lang data with
    | error e => simp only [cus_go, herr]
    | ok us0 =>
      simp only [cus_go, herr]
      exact ih _

theorem check_extra_keys_err_ord_eq (ord1 ord2 : List String → List String)
    (en_us : LangTable) (translations : Translations) :
    (check_extra_keys ord1 en_us translations).2 =
      (check_extra_keys ord2 en_us translations).2 := by
  unfold check_extra_keys
  by_cases h : (translations.any fun p => !(extra_keys_of en_us p.2).isEmpty) = true
  · rw [if_pos h, if_pos h]
  · rw [if_neg h, if_neg h]

theorem main_checks_err_ord_eq (ord1 ord2 : List String → List String) (en_us : LangTable)
    (translations : Translations) (ex : Exemptions) (w : Bool) :
    (main_checks ord1 en_us translations ex w).2 =
      (main_checks ord2 en_us translations ex w).2 := by
  have he := check_extra_keys_err_ord_eq ord1 ord2 en_us translations
  have hu := @cus_go_err_ord_eq ord1 ord2 en_us ex translations
  rcases stats_err_cases en_us translations with h1 | h1
  · cases h2 : (check_extra_keys ord1 en_us translations).2 with
    | some e =>
      have h2b : (check_extra_keys ord2 en_us translations).2 = some e := by
        rw [← he]; exact h2
      simp [main_checks, h1, h2, h2b]
    | none =>
      have h2b : (check_extra_keys ord2 en_us translations).2 = none := by
        rw [← he]; exact h2
      cases h3 : (cus_go ord1 en_us ex translations false).2 with
      | some e =>
        have h3b : (cus_go ord2 en_us ex translations false).2 = some e := by
          rw [← hu false]; exact h3
        simp [main_checks, h1, h2, h2b, check_untranslated_strings, h3, h3b]
      | none =>
        have h3b : (cus_go ord2 en_us ex translations false).2 = none := by
          rw [← hu false]; exact h3
        cases h4 : (check_order_of_strings en_us translations).2 with
        | some e => simp [main_checks, h1, h2, h2b, check_untranslated_strings, h3, h3b, h4]
        | none =>
          cases w with
          | false => simp [main_checks, h1, h2, h2b, check_untranslated_strings, h3, h3b, h4]
          | true => simp [main_checks, h1, h2, h2b, check_untranslated_strings, h3, h3b, h4]
  · simp [main_checks, h1]

theorem flatten_map_perm {α : Type} (f g : α → List String) (l : List α)
    (h : ∀ a ∈ l, (f a).Perm (g a)) :
    ((l.map f).flatten).Perm ((l.map g).flatten) := by
  induction l with
  | nil => exact List.Perm.refl _
  | cons a rest ih =>
    simp only [List.map_cons, List.flatten_cons]
    exact (h a (List.mem_cons_self _ _)).append
      (ih (fun b hb => h b (List.mem_cons_of_mem _ hb)))

theorem extra_block_perm (ord1 ord2 : List String → List String)
    (hv1 : ValidOrder ord1) (hv2 : ValidOrder ord2)
    (en_us : LangTable) (lang : String) (data : LangTable) :
    (extra_block ord1 en_us lang data).Perm (extra_block ord2 en_us lang data) := by
  unfold extra_block
  by_cases he : (extra_keys_of en_us data).isEmpty = true
  · rw [if_pos he, if_pos he]
  · rw [if_neg he, if_neg he]
    exact List.Perm.cons _ (((hv1 _).trans (hv2 _).symm).map _)

theorem check_extra_keys_perm (ord1 ord2 : List String → List String)
    (hv1 : ValidOrder ord1) (hv2 : ValidOrder ord2)
    (en_us : LangTable) (translations : Translations) :
    ((check_extra_keys ord1 en_us translations).1).Perm
      ((check_extra_keys ord2 en_us translations).1) := by
  have hrep := flatten_map_perm (fun p => extra_block ord1 en_us p.1 p.2)
    (fun p => extra_block ord2 en_us p.1 p.2) translations
    (fun p _ => extra_block_perm ord1 ord2 hv1 hv2 en_us p.1 p.2)
  unfold check_extra_keys
  by_cases h : (translations.any fun p => !(extra_keys_of en_us p.2).isEmpty) = true
  · rw [if_pos h, if_pos h]
    exact hrep
  · rw [if_neg h, if_neg h]
    exact hrep.append (List.Perm.refl _)

theorem untranslated_block_perm (ord1 ord2 : List String → List String)
    (hv1 : ValidOrder ord1) (hv2 : ValidOrder ord2)
    (en_us : LangTable) (lang : String) (us : List String) :
    (untranslated_block ord1 en_us lang us).Perm (untranslated_block ord2 en_us lang us) := by
  unfold untranslated_block
  by_cases he : us.isEmpty = true
  · rw [if_pos he, if_pos he]
  · rw [if_neg he, if_neg he]
    have hp : (ord1 us).Perm (ord2 us) := (hv1 us).trans (hv2 us).symm
    have p1 := (hp.map (fun k => "- " ++ k ++ ": " ++ ((List.lookup k en_us).getD "")))
    have p2 := p1.append (List.Perm.refl
      ["\nIf this is intentional, add the affected key(s) to intentionally_untranslated.json:",
       "```json", "  \"" ++ lang ++ "\": ["])
    have p3 := p2.append (hp.map (fun k => "    \"" ++ k ++ "\""))
    have p4 := p3.append (List.Perm.refl ["  ]", "```"])
    exact List.Perm.cons _ p4

theorem cus_go_perm (ord1 ord2 : List String → List String)
    (hv1 : ValidOrder ord1) (hv2 : ValidOrder ord2)
    {en_us : LangTable} {ex : Exemptions} {ts : Translations} :
    ∀ found : Bool, ((cus_go ord1 en_us ex ts found).1).Perm
      ((cus_go ord2 en_us ex ts found).1) := by
  induction ts with
  | nil =>
    intro found
    cases found with
    | false => exact List.Perm.refl _
    | true => exact List.Perm.refl _
  | cons p rest ih =>
    intro found
    obtain ⟨lang, data⟩ := p
    cases herr : untranslated_keys_of en_us ex lang data with
    | error e =>
      simp only [cus_go, herr]
      exact List.Perm.refl _
    | ok us0 =>
      simp only [cus_go, herr]
      exact (untranslated_block_perm ord1 ord2 hv1 hv2 en_us lang us0.dedup).append (ih _)

theorem main_checks_perm (ord1 ord2 : List String → List String)
    (hv1 : ValidOrder ord1) (hv2 : ValidOrder ord2) (en_us : LangTable)
    (translations : Translations) (ex : Exemptions) (w : Bool) :
    ((main_checks ord1 en_us translations ex w).1).Perm
      ((main_checks ord2 en_us translations ex w).1) := by
  have hep := check_extra_keys_perm ord1 ord2 hv1 hv2 en_us translations
  have hup := @cus_go_perm ord1 ord2 hv1 hv2 en_us ex translations
  rcases stats_err_cases en_us translations with h1 | h1
  · cases h2 : (check_extra_keys ord1 en_us translations).2 with
    | some e =>
      have h2b : (check_extra_keys ord2 en_us translations).2 = some e := by
        rw [← check_extra_keys_err_ord_eq ord1 ord2 en_us translations]; exact h2
      simp only [main_checks, h1, h2, h2b]
      exact (List.Perm.refl _).append hep
    | none =>
      have h2b : (check_extra_keys ord2 en_us translations).2 = none := by
        rw [← check_extra_keys_err_ord_eq ord1 ord2 en_us translations]; exact h2
      cases h3 : (cus_go ord1 en_us ex translations false).2 with
      | some e =>
        have h3b : (cus_go ord2 en_us ex translations false).2 = some e := by
          rw [← cus_go_err_ord_eq ord1 ord2 false]; exact h3
        simp only [main_checks, h1, h2, h2b, check_untranslated_strings, h3, h3b]
        exact ((List.Perm.refl _).append hep).append (hup false)
      | none =>
        have h3b : (cus_go ord2 en_us ex translations false).2 = none := by
          rw [← cus_go_err_ord_eq ord1 ord2 false]; exact h3
        cases h4 : (check_order_of_strings en_us translations).2 with
        | some e =>
          simp only [main_checks, h1, h2, h2b, check_untranslated_strings, h3, h3b, h4]
          exact (((List.Perm.refl _).append hep).append (hup false)).append (List.Perm.refl _)
        | none =>
          cases w with
          | false =>
            simp only [main_checks, h1, h2, h2b, check_untranslated_strings, h3, h3b, h4,
              Bool.false_eq_true, if_false]
            exact (((List.Perm.refl _).append hep).append (hup false)).append (List.Perm.refl _)
          | true =>
            simp only [main_checks, h1, h2, h2b, check_untranslated_strings, h3, h3b, h4,
              if_true]
            exact ((((List.Perm.refl _).append hep).append (hup false)).append
              (List.Perm.refl _)).append (List.Perm.refl _)
  · simp only [main_checks, h1]
    exact List.Perm.refl _

/-- C7 counterexample: the offending keys of the extra-keys check are
iterated from a Python set, whose enumeration order is unspecified (string
hashing is randomized per process), so two runs on the same unchanged input
may list them in different orders: two valid set enumerations produce
different report line sequences on the same input. -/
theorem pipeline_set_order_counterexample :
    ValidOrder (fun l : List String => l) ∧
    ValidOrder (fun l : List String => l.reverse) ∧
    (main_checks (fun l => l) [("x", "v")] [("de", [("a", "1"), ("b", "2")])] [] false).1 ≠
      (main_checks (fun l => l.reverse) [("x", "v")]
        [("de", [("a", "1"), ("b", "2")])] [] false).1 :=
  ⟨fun l => List.Perm.refl l, fun l => List.reverse_perm l, by decide⟩

/-- C7 amended: the pipeline is deterministic up to the runtime's set
enumeration order: for any two valid enumeration orders on the same
unchanged input, the raised error (and hence the pass/fail outcome) is
identical, and the report lines are a permutation of each other — the
order of the offending keys listed by the extra-keys and
untranslated-strings checks is the only thing that may differ between
runs. -/
theorem pipeline_deterministic_amended (ord1 ord2 : List String → List String)
    (hv1 : ValidOrder ord1) (hv2 : ValidOrder ord2) (en_us : LangTable)
    (translations : Translations) (ex : Exemptions) (w : Bool) :
    (main_checks ord1 en_us translations ex w).2 =
      (main_checks ord2 en_us translations ex w).2 ∧
    ((main_checks ord1 en_us translations ex w).1).Perm
      ((main_checks ord2 en_us translations ex w).1) :=
  ⟨main_checks_err_ord_eq ord1 ord2 en_us translations ex w,
   main_checks_perm ord1 ord2 hv1 hv2 en_us translations ex w⟩

theorem pipeline_deterministic_amended_witness :
    (main_checks (fun l => l) [("x", "v")] [("de", [("a", "1"), ("b", "2")])] [] false).2 =
      (main_checks (fun l => l.reverse) [("x", "v")]
        [("de", [("a", "1"), ("b", "2")])] [] false).2 ∧
    ((main_checks (fun l => l) [("x", "v")] [("de", [("a", "1"), ("b", "2")])] [] false).1).Perm
      ((main_checks (fun l => l.reverse) [("x", "v")]
        [("de", [("a", "1"), ("b", "2")])] [] false).1) :=
  pipeline_deterministic_amended (fun l => l) (fun l => l.reverse)
    (fun l => List.Perm.refl l) (fun l => List.reverse_perm l)
    [("x", "v")] [("de", [("a", "1"), ("b", "2")])] [] false
